import Mathlib

/-!
Verification development for the `tike_content` repository.

Part 1 embeds the executable notebook code of the FFI transient-search
tutorial (`src/unnamed/part_000`): the `minStart`/`maxStart` window columns,
the per-transient FFI counting loop (`nTESS`, `nTESStimed`), and the
central-pixel aperture mask.

Part 2 models the proposed image-specification YAML schema of
`code/image-builds/protoype-protocol.yaml`.  The repository contains only the
schema draft; the resolution engine lives in the external
science-platform-images build system, so those definitions are modelled from
the specification text.
-/

namespace TikeContent

/-! ### The transient-search notebook (`src/unnamed/part_000`) -/

/-- Abstract celestial coordinate; the notebook stores `SkyCoord` objects and
only ever feeds them to `separation`. -/
structure SkyCoord where
  ra : ℚ
  dec : ℚ
deriving DecidableEq, Repr

/-- One row of the `FFIs` table: its central coordinate and start time
`t_min` (MJD). -/
structure FFIRow where
  skyCoord : SkyCoord
  t_min : ℚ
deriving DecidableEq, Repr

/-- One row of the transient table `tab` after the window columns were added:
coordinate, and the `minStart`/`maxStart` MJD window. -/
structure TransientRow where
  skyCoord : SkyCoord
  minStart : ℚ
  maxStart : ℚ
deriving DecidableEq, Repr

/-- `tab['minStart'] = tab['peakTime'].mjd - rise - 26` (rise already parsed
from the stripped string). -/
def minStart (peakMjd rise : ℚ) : ℚ := peakMjd - rise - 26

/-- `tab['maxStart'] = tab['peakTime'].mjd + fade`. -/
def maxStart (peakMjd fade : ℚ) : ℚ := peakMjd + fade

/-- `np.sum` of a boolean array: the number of `true` entries. -/
def npsum (l : List Bool) : ℕ := l.countP id

/-- `arr1 = row['SkyCoord'].separation(FFIs['SkyCoord']) < 6*u.deg`, with the
angular-separation function `sep` kept abstract. -/
def arr1 (sep : SkyCoord → SkyCoord → ℚ) (row : TransientRow) (ffis : List FFIRow) :
    List Bool :=
  ffis.map fun f => decide (sep row.skyCoord f.skyCoord < 6)

/-- `arr2 = (row['minStart'] <= FFIs['t_min']) & (row['maxStart'] >= FFIs['t_min'])`. -/
def arr2 (row : TransientRow) (ffis : List FFIRow) : List Bool :=
  ffis.map fun f => decide (row.minStart ≤ f.t_min ∧ row.maxStart ≥ f.t_min)

/-- `tab['nTESS'][i] = np.sum(arr1)`. -/
def nTESS (sep : SkyCoord → SkyCoord → ℚ) (row : TransientRow) (ffis : List FFIRow) : ℕ :=
  npsum (arr1 sep row ffis)

/-- `tab['nTESStimed'][i] = np.sum((arr1) & (arr2))`. -/
def nTESStimed (sep : SkyCoord → SkyCoord → ℚ) (row : TransientRow) (ffis : List FFIRow) : ℕ :=
  npsum (List.zipWith and (arr1 sep row ffis) (arr2 row ffis))

lemma countP_zipWith_and_le (l1 l2 : List Bool) :
    (List.zipWith and l1 l2).countP id ≤ l1.countP id := by
  induction l1 generalizing l2 with
  | nil => simp
  | cons a l ih =>
    cases l2 with
    | nil => simp [List.countP_cons]
    | cons b l2 =>
      have h := ih l2
      simp only [List.zipWith, List.countP_cons]
      cases a <;> cases b <;> simp <;> omega

/-! ### The central-pixel aperture mask (`src/unnamed/part_000`) -/

/-- `central_index = np.floor(size / 2.0).astype(int)`; on naturals this is
integer division by two. -/
def central_index (size : ℕ) : ℕ := size / 2

/-- `target_mask = np.full((size, size), False); target_mask[c, c] = True`,
modelled as a row list of boolean rows updated at the central position. -/
def target_mask (size : ℕ) : List (List Bool) :=
  (List.replicate size (List.replicate size false)).set (central_index size)
    ((List.replicate size false).set (central_index size) true)

/-- Number of `True` entries in a boolean grid. -/
def gridCount (g : List (List Bool)) : ℕ := (g.map fun r => r.count true).sum

/-- Entry of a boolean grid at row `i`, column `j` (`False` if out of range). -/
def gridGet (g : List (List Bool)) (i j : ℕ) : Bool := ((g.getD i []).getD j false)

lemma count_replicate_set_true (n c : ℕ) (hc : c < n) :
    ((List.replicate n false).set c true).count true = 1 := by
  induction n generalizing c with
  | zero => omega
  | succ n ih =>
    cases c with
    | zero => simp [List.replicate_succ, List.count_replicate]
    | succ c =>
      have hc' : c < n := by omega
      simp [List.replicate_succ, List.set, ih c hc']

lemma sum_replicate_zero_set (m c x : ℕ) (hc : c < m) :
    ((List.replicate m 0).set c x).sum = x := by
  induction m generalizing c with
  | zero => omega
  | succ m ih =>
    cases c with
    | zero => simp [List.replicate_succ]
    | succ c =>
      have hc' : c < m := by omega
      simp [List.replicate_succ, List.set, ih c hc']

lemma map_sum_replicate_set {α : Type} (f : α → ℕ) (m c : ℕ) (r0 r' : α)
    (h0 : f r0 = 0) (hc : c < m) :
    (((List.replicate m r0).set c r').map f).sum = f r' := by
  rw [List.map_set, List.map_replicate, h0]
  exact sum_replicate_zero_set m c (f r') hc

lemma getD_replicate_set {α : Type} (m c : ℕ) (r0 r' : α) (d : α) (hc : c < m) :
    ((List.replicate m r0).set c r').getD c d = r' := by
  induction m generalizing c with
  | zero => omega
  | succ m ih =>
    cases c with
    | zero => rfl
    | succ c =>
      have hc' : c < m := by omega
      exact ih c hc'

lemma getD_set_true (n c : ℕ) (hc : c < n) :
    ((List.replicate n false).set c true).getD c false = true :=
  getD_replicate_set n c false true false hc

/-! ### The image-specification schema (`code/image-builds/protoype-protocol.yaml`) -/

/-- A directory path as a list of segments; `[]` is the top of the notebook
repository (the `""` default of `root_nb_directory`). -/
abbrev Path := List String

/-- Modelled from the spec: a `.` segment denotes the directory itself
(`include_subdirs: [.]` means recursive from root), so path normalization
drops `.` segments. -/
def normalize (p : Path) : Path := p.filter fun s => s ≠ "."

/-- Modelled from the spec: a date of the validity window (`valid_on`,
`expires_on`). -/
structure Date where
  year : ℕ
  month : ℕ
  day : ℕ
deriving DecidableEq, Repr

/-- Calendar order on dates: year, then month, then day. -/
def dateLE (a b : Date) : Prop :=
  a.year < b.year ∨ (a.year = b.year ∧
    (a.month < b.month ∨ (a.month = b.month ∧ a.day ≤ b.day)))

instance (a b : Date) : Decidable (dateLE a b) := by
  unfold dateLE; infer_instance

/-- Within-range calendar date. -/
def dateOK (d : Date) : Prop :=
  1 ≤ d.month ∧ d.month ≤ 12 ∧ 1 ≤ d.day ∧ d.day ≤ 31

instance (d : Date) : Decidable (dateOK d) := by
  unfold dateOK; infer_instance

/-- Modelled from the spec: the `image_spec_header` block of the schema. -/
structure ImageSpecHeader where
  image_name : String
  description : String
  valid_on : Date
  expires_on : Date
  nb_repo : String
  root_nb_directory : Option Path
  python_version : String
deriving DecidableEq, Repr

/-- Modelled from the spec: a valid header satisfies the documented invariant
`valid_on <= expires_on` with both dates in calendar range.  The repository
holds only the schema draft; no validator is implemented. -/
def ImageSpecHeader.Valid (h : ImageSpecHeader) : Prop :=
  dateOK h.valid_on ∧ dateOK h.expires_on ∧ dateLE h.valid_on h.expires_on

instance (h : ImageSpecHeader) : Decidable h.Valid := by
  unfold ImageSpecHeader.Valid; infer_instance

/-- Modelled from the spec: one `- directories:` block of
`selected_notebooks`, with its optional root override and optional
include/exclude lists. -/
structure DirectoryBlock where
  root_nb_directory : Option Path
  include_subdirs : Option (List Path)
  exclude_subdirs : Option (List Path)
deriving DecidableEq, Repr

/-- Modelled from the spec: a whole image specification, header plus ordered
directory blocks. -/
structure ImageSpec where
  header : ImageSpecHeader
  blocks : List DirectoryBlock
deriving DecidableEq, Repr

/-- Modelled from the spec: `include_subdirs` defaults to `[.]`, meaning
recursive from root. -/
def effInclude (b : DirectoryBlock) : List Path :=
  b.include_subdirs.getD [["."]]

/-- Modelled from the spec: `exclude_subdirs` defaults to `[]`. -/
def effExclude (b : DirectoryBlock) : List Path :=
  b.exclude_subdirs.getD []

/-- Modelled from the spec: a block's effective root is its own
`root_nb_directory` when declared, else the header's, else `""`
(the empty path, top-of-repo). -/
def effRoot (h : ImageSpecHeader) (b : DirectoryBlock) : Path :=
  b.root_nb_directory.getD (h.root_nb_directory.getD [])

/-- Modelled from the spec: directories are recursively included, relative
extensions of the effective root, so directory `d` lies in the subtree rooted
at `root` extended by `sub` when the normalized concatenation is a prefix of
`d`. -/
def inTree (root sub d : Path) : Bool :=
  (normalize (root ++ sub)).isPrefixOf d

/-- Modelled from the spec: `d` lies in some included subdirectory tree of
some block. -/
def included (h : ImageSpecHeader) (blocks : List DirectoryBlock) (d : Path) : Bool :=
  blocks.any fun b => (effInclude b).any fun s => inTree (effRoot h b) s d

/-- Modelled from the spec: `d` lies in some excluded subdirectory tree of
some block. -/
def excluded (h : ImageSpecHeader) (blocks : List DirectoryBlock) (d : Path) : Bool :=
  blocks.any fun b => (effExclude b).any fun s => inTree (effRoot h b) s d

/-- Modelled from the spec: the effective notebook set over the repository
directory listing `repo` — the union of all included subdirectory trees minus
all excluded subdirectory trees, duplicates removed. -/
def resolveNotebooks (repo : List Path) (h : ImageSpecHeader)
    (blocks : List DirectoryBlock) : List Path :=
  (repo.filter fun d => included h blocks d && ! excluded h blocks d).dedup

/-- Modelled from the spec: a `requirements.txt` file at any level of the
selected directories enters the union of image requirements, renamed/tagged
by its directory of origin.  `files` lists every file of the notebook
repository as a path whose last segment is the file name. -/
def requirementsUnion (files : List Path) (selected : List Path) :
    List (Path × String) :=
  (files.filter fun f =>
      f.getLast? = some "requirements.txt" &&
        selected.any fun d => d.isPrefixOf f.dropLast).map
    fun f => (f.dropLast, "requirements.txt")

/-! ### YAML serialization of the schema (claim C5) -/

/-- Modelled from the spec: a generic YAML document tree as it appears in the
schema file — scalars (strings, dates, directory paths), sequences, and
key-value mappings. -/
inductive YamlVal where
  | str : String → YamlVal
  | date : Date → YamlVal
  | path : Path → YamlVal
  | seq : List YamlVal → YamlVal
  | map : List (String × YamlVal) → YamlVal

/-- Emit a key only when the optional field is declared. -/
def writeOptEntry (key : String) (v : Option YamlVal) : List (String × YamlVal) :=
  match v with
  | none => []
  | some y => [(key, y)]

/-- Modelled from the spec: serialize one `- directories:` block. -/
def writeBlock (b : DirectoryBlock) : YamlVal :=
  .map (writeOptEntry "root_nb_directory" (b.root_nb_directory.map .path)
    ++ writeOptEntry "include_subdirs"
        (b.include_subdirs.map fun l => .seq (l.map .path))
    ++ writeOptEntry "exclude_subdirs"
        (b.exclude_subdirs.map fun l => .seq (l.map .path)))

/-- Modelled from the spec: serialize the `image_spec_header` block. -/
def writeHeader (h : ImageSpecHeader) : YamlVal :=
  .map ([("image_name", .str h.image_name),
      ("description", .str h.description),
      ("valid_on", .date h.valid_on),
      ("expires_on", .date h.expires_on),
      ("nb_repo", .str h.nb_repo)]
    ++ writeOptEntry "root_nb_directory" (h.root_nb_directory.map .path)
    ++ [("python_version", .str h.python_version)])

/-- Modelled from the spec: serialize a whole image specification. -/
def writeImageSpec (s : ImageSpec) : YamlVal :=
  .map [("image_spec_header", writeHeader s.header),
    ("selected_notebooks", .seq (s.blocks.map writeBlock))]

/-- Expect a string scalar. -/
def asStr : YamlVal → Option String
  | .str s => some s
  | _ => none

/-- Expect a date scalar. -/
def asDate : YamlVal → Option Date
  | .date d => some d
  | _ => none

/-- Expect a path scalar. -/
def asPath : YamlVal → Option Path
  | .path p => some p
  | _ => none

/-- Expect a sequence of path scalars. -/
def readPaths : List YamlVal → Option (List Path)
  | [] => some []
  | v :: rest => do
    let p ← asPath v
    let ps ← readPaths rest
    some (p :: ps)

/-- Expect a sequence node of path scalars. -/
def asPathSeq : YamlVal → Option (List Path)
  | .seq l => readPaths l
  | _ => none

/-- Read a required key of a mapping. -/
def readReqKey {α : Type} (m : List (String × YamlVal)) (k : String)
    (f : YamlVal → Option α) : Option α :=
  (List.lookup k m).bind f

/-- Read an optional key of a mapping; absence parses to `none`. -/
def readOptKey {α : Type} (m : List (String × YamlVal)) (k : String)
    (f : YamlVal → Option α) : Option (Option α) :=
  match List.lookup k m with
  | none => some none
  | some v => (f v).map some

/-- Modelled from the spec: parse one `- directories:` block. -/
def readBlock : YamlVal → Option DirectoryBlock
  | .map m => do
    let root ← readOptKey m "root_nb_directory" asPath
    let inc ← readOptKey m "include_subdirs" asPathSeq
    let exc ← readOptKey m "exclude_subdirs" asPathSeq
    some ⟨root, inc, exc⟩
  | _ => none

/-- Parse a sequence of directory blocks. -/
def readBlocks : List YamlVal → Option (List DirectoryBlock)
  | [] => some []
  | v :: rest => do
    let b ← readBlock v
    let bs ← readBlocks rest
    some (b :: bs)

/-- Modelled from the spec: parse the `image_spec_header` block. -/
def readHeader : YamlVal → Option ImageSpecHeader
  | .map m => do
    let n ← readReqKey m "image_name" asStr
    let de ← readReqKey m "description" asStr
    let v ← readReqKey m "valid_on" asDate
    let e ← readReqKey m "expires_on" asDate
    let re ← readReqKey m "nb_repo" asStr
    let root ← readOptKey m "root_nb_directory" asPath
    let p ← readReqKey m "python_version" asStr
    some ⟨n, de, v, e, re, root, p⟩
  | _ => none

/-- Modelled from the spec: parse a whole image specification. -/
def readImageSpec : YamlVal → Option ImageSpec
  | .map m => do
    let hv ← List.lookup "image_spec_header" m
    let h ← readHeader hv
    let sv ← List.lookup "selected_notebooks" m
    match sv with
    | .seq l => do
      let bs ← readBlocks l
      some ⟨h, bs⟩
    | _ => none
  | _ => none

/-- The concrete header written in `protoype-protocol.yaml`. -/
def tikeHeader : ImageSpecHeader where
  image_name := "TIKE 2025.05"
  description := "A block of text can be inserted here if desired,  optional."
  valid_on := ⟨2025, 5, 12⟩
  expires_on := ⟨2025, 12, 31⟩
  nb_repo := "https://github.com/spacetelescope/tike_content"
  root_nb_directory := some ["content", "notebooks"]
  python_version := "3.12.9"

/-- A header with every optional field omitted, used for concrete instances. -/
def hdrNone : ImageSpecHeader :=
  ⟨"img", "", ⟨2025, 1, 1⟩, ⟨2025, 12, 31⟩, "repo", none, "3.12"⟩

lemma included_exclude_irrel (h : ImageSpecHeader) (pre post : List DirectoryBlock)
    (b : DirectoryBlock) (x : Option (List Path)) (d : Path) :
    included h (pre ++ { b with exclude_subdirs := x } :: post) d =
      included h (pre ++ b :: post) d := by
  simp [included, List.any_append, List.any_cons, effInclude, effRoot]

lemma effRoot_exclude_update (h : ImageSpecHeader) (b : DirectoryBlock)
    (x : Option (List Path)) :
    effRoot h { b with exclude_subdirs := x } = effRoot h b := rfl

lemma excluded_remove (h : ImageSpecHeader) (pre post : List DirectoryBlock)
    (b : DirectoryBlock) (l1 l2 : List Path) (e : Path) (d : Path)
    (hb : b.exclude_subdirs = some (l1 ++ e :: l2))
    (he : inTree (effRoot h b) e d = false) :
    excluded h (pre ++ { b with exclude_subdirs := some (l1 ++ l2) } :: post) d =
      excluded h (pre ++ b :: post) d := by
  simp [excluded, List.any_append, List.any_cons, effExclude,
    effRoot_exclude_update, hb, he]

lemma resolve_replace (repo : List Path) (h : ImageSpecHeader)
    (pre post : List DirectoryBlock) (b b' : DirectoryBlock)
    (h1 : effRoot h b' = effRoot h b) (h2 : effInclude b' = effInclude b)
    (h3 : effExclude b' = effExclude b) :
    resolveNotebooks repo h (pre ++ b' :: post) =
      resolveNotebooks repo h (pre ++ b :: post) := by
  unfold resolveNotebooks
  congr 1
  apply List.filter_congr
  intro d _
  simp [included, excluded, List.any_append, List.any_cons, h1, h2, h3]

/-! ### Claims C8, C9, C10 -/

/-- Claim C8: in the transient-search loop, `nTESStimed` (FFIs passing both
the 6-degree separation cut and the timing window) never exceeds `nTESS`
(FFIs passing the separation cut alone), because it counts the conjunction of
the two boolean arrays whose first conjunct alone defines `nTESS`. -/
theorem nTESStimed_le_nTESS (sep : SkyCoord → SkyCoord → ℚ)
    (row : TransientRow) (ffis : List FFIRow) :
    nTESStimed sep row ffis ≤ nTESS sep row ffis :=
  countP_zipWith_and_le _ _

/-- Claim C9: with nonnegative `rise` and `fade`, the window
`[minStart, maxStart] = [peak - rise - 26, peak + fade]` is non-empty and
contains the peak time. -/
theorem minStart_le_peak_le_maxStart (peakMjd rise fade : ℚ)
    (hr : 0 ≤ rise) (hf : 0 ≤ fade) :
    minStart peakMjd rise ≤ peakMjd ∧ peakMjd ≤ maxStart peakMjd fade ∧
      minStart peakMjd rise ≤ maxStart peakMjd fade := by
  unfold minStart maxStart
  refine ⟨by linarith, by linarith, by linarith⟩

/-- Witness for C9: the window for a concrete row (peak 60123, rise 3,
fade 11) contains the peak. -/
theorem minStart_le_peak_le_maxStart_witness :
    minStart 60123 3 ≤ 60123 ∧ (60123 : ℚ) ≤ maxStart 60123 11 ∧
      minStart 60123 3 ≤ maxStart 60123 11 :=
  minStart_le_peak_le_maxStart 60123 3 11 (by norm_num) (by norm_num)

/-- Claim C10: for every odd positive cutout size, the aperture mask built by
setting index `size / 2` of an all-`False` `size × size` grid has exactly one
`True` entry, located at the geometric center
(`central_index = (size - 1) / 2`, so `2 * central_index + 1 = size`). -/
theorem target_mask_center (size : ℕ) (hpos : 0 < size) (hodd : Odd size) :
    gridCount (target_mask size) = 1 ∧
      gridGet (target_mask size) (central_index size) (central_index size) = true ∧
      2 * central_index size + 1 = size := by
  have hc : central_index size < size := Nat.div_lt_self hpos (by omega)
  refine ⟨?_, ?_, ?_⟩
  · unfold gridCount target_mask
    rw [map_sum_replicate_set _ size (central_index size) _ _
      (by simp [List.count_replicate]) hc]
    exact count_replicate_set_true size (central_index size) hc
  · unfold gridGet target_mask
    rw [getD_replicate_set size (central_index size) _ _ [] hc]
    exact getD_set_true size (central_index size) hc
  · obtain ⟨k, hk⟩ := hodd
    unfold central_index
    omega

/-- Witness for C10: the 9×9 mask has a single `True` at position (4, 4). -/
theorem target_mask_center_witness :
    gridCount (target_mask 9) = 1 ∧
      gridGet (target_mask 9) (central_index 9) (central_index 9) = true ∧
      2 * central_index 9 + 1 = 9 :=
  target_mask_center 9 (by norm_num) ⟨4, by norm_num⟩

/-! ### Claims C1 .. C7 -/

/-- Claim C1: the resolved notebook set is exactly the union of all included
subdirectory trees minus the union of all excluded subdirectory trees, and a
directory appearing in more than one included tree occurs exactly once. -/
theorem resolveNotebooks_union_minus (repo : List Path) (h : ImageSpecHeader)
    (blocks : List DirectoryBlock) (d : Path) :
    (d ∈ resolveNotebooks repo h blocks ↔
      d ∈ repo ∧
        (∃ b ∈ blocks, ∃ s ∈ effInclude b, inTree (effRoot h b) s d = true) ∧
        ¬ ∃ b ∈ blocks, ∃ s ∈ effExclude b, inTree (effRoot h b) s d = true) ∧
    (resolveNotebooks repo h blocks).Nodup ∧
    (d ∈ resolveNotebooks repo h blocks →
      (resolveNotebooks repo h blocks).count d = 1) := by
  refine ⟨?_, List.nodup_dedup _, ?_⟩
  · simp [resolveNotebooks, List.mem_filter, included, excluded,
      List.any_eq_true, and_assoc]
  · intro hd
    have hcount := List.count_eq_one_of_mem (List.nodup_dedup
      (repo.filter fun d => included h blocks d && ! excluded h blocks d)) hd
    have hinst : (instBEqOfDecidableEq : BEq Path) = List.instBEq :=
      lawful_beq_subsingleton _ _
    exact hinst ▸ hcount

/-- Witness for C1 on a concrete specification: the directory `a/b` listed by
two overlapping include trees occurs exactly once. -/
theorem resolveNotebooks_union_minus_witness :
    ["a", "b"] ∈
        resolveNotebooks [["a", "b"]] hdrNone
          [DirectoryBlock.mk none (some [["a"], ["a", "b"]]) none] ∧
      (resolveNotebooks [["a", "b"]] hdrNone
          [DirectoryBlock.mk none (some [["a"], ["a", "b"]]) none]).count
        ["a", "b"] = 1 :=
  ⟨by decide,
    (resolveNotebooks_union_minus [["a", "b"]] hdrNone
      [DirectoryBlock.mk none (some [["a"], ["a", "b"]]) none] ["a", "b"]).2.2
      (by decide)⟩

/-- Claim C2: an omitted `include_subdirs` defaults to `[.]` and an omitted
`exclude_subdirs` defaults to `[]`, and writing the defaults explicitly
resolves to the same notebook set. -/
theorem omitted_fields_default (h : ImageSpecHeader) (repo : List Path)
    (pre post : List DirectoryBlock) (b : DirectoryBlock) :
    (b.include_subdirs = none → effInclude b = [["."]] ∧
      resolveNotebooks repo h (pre ++ { b with include_subdirs := some [["."]] } :: post) =
        resolveNotebooks repo h (pre ++ b :: post)) ∧
    (b.exclude_subdirs = none → effExclude b = [] ∧
      resolveNotebooks repo h (pre ++ { b with exclude_subdirs := some [] } :: post) =
        resolveNotebooks repo h (pre ++ b :: post)) := by
  constructor
  · intro heq
    refine ⟨by simp [effInclude, heq], ?_⟩
    exact resolve_replace repo h pre post b _ rfl (by simp [effInclude, heq]) rfl
  · intro heq
    refine ⟨by simp [effExclude, heq], ?_⟩
    exact resolve_replace repo h pre post b _ rfl rfl (by simp [effExclude, heq])

/-- Witness for C2: a block with both fields omitted resolves like the block
with the defaults written out. -/
theorem omitted_fields_default_witness :
    (effInclude (DirectoryBlock.mk none none none) = [["."]] ∧
      resolveNotebooks [["x"]] hdrNone
          [{ DirectoryBlock.mk none none none with include_subdirs := some [["."]] }] =
        resolveNotebooks [["x"]] hdrNone [DirectoryBlock.mk none none none]) ∧
    effExclude (DirectoryBlock.mk none none none) = [] :=
  ⟨(omitted_fields_default hdrNone [["x"]] [] [] (DirectoryBlock.mk none none none)).1 rfl,
    ((omitted_fields_default hdrNone [["x"]] [] [] (DirectoryBlock.mk none none none)).2 rfl).1⟩

/-- Claim C3: a block omitting `root_nb_directory` takes the header's value,
an omission in both places means the top of the repository, and a declared
block value overrides the header for that block (independently of the
header). -/
theorem effRoot_default (h : ImageSpecHeader) (b : DirectoryBlock) (r : Path) :
    (b.root_nb_directory = none → effRoot h b = h.root_nb_directory.getD []) ∧
    (b.root_nb_directory = none → h.root_nb_directory = none → effRoot h b = []) ∧
    (b.root_nb_directory = some r →
      ∀ h' : ImageSpecHeader, effRoot h' b = r) := by
  refine ⟨fun hb => ?_, fun hb hh => ?_, fun hb h' => ?_⟩
  · simp [effRoot, hb]
  · simp [effRoot, hb, hh]
  · simp [effRoot, hb]

/-- Witness for C3: the double omission yields the top of the repository, and
a block override wins over the header of the concrete TIKE spec. -/
theorem effRoot_default_witness :
    effRoot hdrNone (DirectoryBlock.mk none none none) = [] ∧
      effRoot tikeHeader (DirectoryBlock.mk (some ["z"]) none none) = ["z"] :=
  ⟨(effRoot_default hdrNone (DirectoryBlock.mk none none none) []).2.1 rfl rfl,
    (effRoot_default tikeHeader (DirectoryBlock.mk (some ["z"]) none none) ["z"]).2.2
      rfl tikeHeader⟩

/-- Claim C4: the requirements union holds exactly the `requirements.txt`
files found at any level under the selected directories, each tagged by its
directory of origin, and two such files from different directories never
collide. -/
theorem requirementsUnion_spec (files selected : List Path) (d : Path) (n : String) :
    ((d, n) ∈ requirementsUnion files selected ↔
      n = "requirements.txt" ∧ d ++ ["requirements.txt"] ∈ files ∧
        ∃ s ∈ selected, s.isPrefixOf d = true) ∧
    (∀ f1 ∈ files, ∀ f2 ∈ files,
      f1.getLast? = some "requirements.txt" →
      f2.getLast? = some "requirements.txt" → f1 ≠ f2 →
        (f1.dropLast, "requirements.txt") ≠ (f2.dropLast, "requirements.txt")) := by
  constructor
  · simp only [requirementsUnion, List.mem_map, List.mem_filter,
      Bool.and_eq_true, decide_eq_true_eq, List.any_eq_true, Prod.mk.injEq]
    constructor
    · rintro ⟨f, ⟨hf, hlast, s, hs, hpre⟩, hdrop, hn⟩
      subst hdrop
      have hsplit : f.dropLast ++ ["requirements.txt"] = f :=
        List.dropLast_append_getLast? _ (Option.mem_def.mpr hlast)
      exact ⟨hn.symm, by rw [hsplit]; exact hf, s, hs, hpre⟩
    · rintro ⟨hn, hf, s, hs, hpre⟩
      refine ⟨d ++ ["requirements.txt"], ⟨hf, ?_, s, hs, ?_⟩, ?_, hn.symm⟩
      · simp
      · simpa using hpre
      · simp
  · intro f1 h1 f2 h2 hl1 hl2 hne heq
    apply hne
    have g1 : f1.dropLast ++ ["requirements.txt"] = f1 :=
      List.dropLast_append_getLast? _ (Option.mem_def.mpr hl1)
    have g2 : f2.dropLast ++ ["requirements.txt"] = f2 :=
      List.dropLast_append_getLast? _ (Option.mem_def.mpr hl2)
    have hd12 : f1.dropLast = f2.dropLast := congrArg Prod.fst heq
    rw [← g1, ← g2, hd12]

/-- Witness for C4: a concrete file table with two requirements files under
the selected directories. -/
theorem requirementsUnion_spec_witness :
    (["a"], "requirements.txt") ∈
        requirementsUnion [["a", "requirements.txt"], ["b", "c", "requirements.txt"]]
          [["a"], ["b"]] ∧
      ((["a", "requirements.txt"] : Path).dropLast, "requirements.txt") ≠
        ((["b", "c", "requirements.txt"] : Path).dropLast, "requirements.txt") :=
  ⟨(requirementsUnion_spec [["a", "requirements.txt"], ["b", "c", "requirements.txt"]]
        [["a"], ["b"]] ["a"] "requirements.txt").1.mpr (by decide),
    (requirementsUnion_spec [["a", "requirements.txt"], ["b", "c", "requirements.txt"]]
        [["a"], ["b"]] ["a"] "requirements.txt").2
      ["a", "requirements.txt"] (by decide) ["b", "c", "requirements.txt"] (by decide)
      (by decide) (by decide) (by decide)⟩

/-- Claim C6: a valid header satisfies `valid_on <= expires_on`, and the
concrete header of the prototype file is valid. -/
theorem header_valid_window (h : ImageSpecHeader) :
    tikeHeader.Valid ∧ (h.Valid → dateLE h.valid_on h.expires_on) :=
  ⟨by decide, fun hv => hv.2.2⟩

/-- Witness for C6: the validity window of the concrete TIKE header is
ordered. -/
theorem header_valid_window_witness :
    dateLE tikeHeader.valid_on tikeHeader.expires_on :=
  (header_valid_window tikeHeader).2 (by decide)

/-- Counterexample to C7 as stated: the exclude entry `a` is not nested under
the single included tree `a/b/c`, yet removing it changes the resolved set
(it excludes the included tree nested beneath it). -/
theorem exclude_outside_include_counterexample :
    (¬ ∃ b ∈ [DirectoryBlock.mk none (some [["a", "b", "c"]]) (some [["a"]])],
        ∃ s ∈ effInclude b,
          inTree (effRoot hdrNone b) s
            (normalize (effRoot hdrNone
              (DirectoryBlock.mk none (some [["a", "b", "c"]]) (some [["a"]])) ++ ["a"])) =
            true) ∧
    resolveNotebooks [["a", "b", "c"]] hdrNone
        [DirectoryBlock.mk none (some [["a", "b", "c"]]) (some [])] ≠
      resolveNotebooks [["a", "b", "c"]] hdrNone
        [DirectoryBlock.mk none (some [["a", "b", "c"]]) (some [["a"]])] := by
  decide

/-- Claim C7 amended: an `exclude_subdirs` entry whose subdirectory tree
contains no repository directory lying in any included tree has no effect:
removing the entry leaves the resolved notebook set unchanged.  (As stated
the claim fails: an exclude entry that is an ancestor of an included tree is
itself nested under no included tree but still removes directories.) -/
theorem exclude_disjoint_no_effect (repo : List Path) (h : ImageSpecHeader)
    (pre post : List DirectoryBlock) (b : DirectoryBlock)
    (l1 l2 : List Path) (e : Path)
    (hb : b.exclude_subdirs = some (l1 ++ e :: l2))
    (hdisj : ∀ d ∈ repo, inTree (effRoot h b) e d = true →
      included h (pre ++ b :: post) d = false) :
    resolveNotebooks repo h (pre ++ { b with exclude_subdirs := some (l1 ++ l2) } :: post) =
      resolveNotebooks repo h (pre ++ b :: post) := by
  unfold resolveNotebooks
  congr 1
  apply List.filter_congr
  intro d hd
  by_cases he : inTree (effRoot h b) e d = true
  · have h1 := hdisj d hd he
    have h2 : included h (pre ++ { b with exclude_subdirs := some (l1 ++ l2) } :: post) d
        = false := by
      rw [included_exclude_irrel]; exact h1
    simp [h1, h2]
  · have he' : inTree (effRoot h b) e d = false := by simpa using he
    rw [included_exclude_irrel, excluded_remove h pre post b l1 l2 e d hb he']

/-- Witness for the amended C7: removing the exclude entry `a`, disjoint from
the single included tree `x`, does not change the resolved set. -/
theorem exclude_disjoint_no_effect_witness :
    resolveNotebooks [["x"], ["a"]] hdrNone
        [{ DirectoryBlock.mk none (some [["x"]]) (some [["a"]]) with
            exclude_subdirs := some ([] ++ []) }] =
      resolveNotebooks [["x"], ["a"]] hdrNone
        [DirectoryBlock.mk none (some [["x"]]) (some [["a"]])] :=
  exclude_disjoint_no_effect [["x"], ["a"]] hdrNone [] []
    (DirectoryBlock.mk none (some [["x"]]) (some [["a"]])) [] [] ["a"] rfl
    (by decide)

lemma readPaths_map (l : List Path) : readPaths (l.map YamlVal.path) = some l := by
  induction l with
  | nil => rfl
  | cons p l ih => simp [readPaths, asPath, ih]

lemma readBlock_writeBlock (b : DirectoryBlock) : readBlock (writeBlock b) = some b := by
  obtain ⟨root, inc, exc⟩ := b
  cases root <;> cases inc <;> cases exc <;>
    simp +decide [readBlock, writeBlock, writeOptEntry, readOptKey, List.lookup,
      asPath, asPathSeq, readPaths_map]

lemma readBlocks_map (bs : List DirectoryBlock) :
    readBlocks (bs.map writeBlock) = some bs := by
  induction bs with
  | nil => rfl
  | cons b bs ih => simp [readBlocks, readBlock_writeBlock, ih]

lemma readHeader_writeHeader (h : ImageSpecHeader) :
    readHeader (writeHeader h) = some h := by
  obtain ⟨n, de, v, e, re, root, p⟩ := h
  cases root <;>
    simp +decide [readHeader, writeHeader, writeOptEntry, readReqKey, readOptKey,
      List.lookup, asStr, asDate, asPath]

/-- Claim C5: serializing an image specification (header and directory
blocks) to YAML and parsing it back yields a value equal to the original in
every declared field. -/
theorem readImageSpec_writeImageSpec (s : ImageSpec) :
    readImageSpec (writeImageSpec s) = some s := by
  obtain ⟨h, bs⟩ := s
  simp +decide [readImageSpec, writeImageSpec, List.lookup,
    readHeader_writeHeader, readBlocks_map]

end TikeContent
